import Mathlib

/-!
Verification of the vulnerability-aggregation and commit-linkage engine of the
`pillow_analysis_project` repository.  The Python sources embedded here are
`src/data_pipeline/data_cleaner.py` (id normalization, commit association),
`src/data_pipeline/git_crawler.py` (git log parsing, commit existence, grep),
`src/data_pipeline/cve_collector.py` (multi-source merge in `collect`), and
`tools/run_link_commits.py` (the three-tier evidence linker).

Python strings are modelled over `List Char`; operations such as `strip`,
`split`, `replace` and the two regular expressions used by the pipeline are
given explicit executable definitions that follow CPython semantics for the
ASCII inputs the pipeline handles.  Python `None` for string-valued record
fields is modelled by `""`: every read of such a field in the sources is
guarded by truthiness (`if not x`), under which `None` and `""` behave alike.
-/

namespace PillowSpec

/-! ### Character / string primitives used by the Python sources -/

/-- A regex word character (`\w`) for ASCII text: letter, digit or underscore. -/
def isWordChar (c : Char) : Bool := c.isAlpha || c.isDigit || c == '_'

/-- ASCII whitespace recognised by Python `str.strip()`. -/
def isPySpace (c : Char) : Bool :=
  c == ' ' || c == '\t' || c == '\n' || c == '\r' || c == '\x0b' || c == '\x0c'

/-- Drop elements satisfying `p` from both ends. -/
def stripList {α : Type} (p : α → Bool) (l : List α) : List α :=
  ((l.dropWhile p).reverse.dropWhile p).reverse

/-- Python `str.strip()` (ASCII whitespace). -/
def pyStripL (l : List Char) : List Char := stripList isPySpace l

/-- Python `str.strip()` on `String`. -/
def pyStrip (s : String) : String := ⟨pyStripL s.data⟩

/-- Python `str.upper()` for ASCII text. -/
def pyUpperL (l : List Char) : List Char := l.map Char.toUpper

/-- Python `str.lower()` for ASCII text. -/
def pyLowerL (l : List Char) : List Char := l.map Char.toLower

/-- Python `str.isdigit()` for ASCII content: non-empty, all decimal digits. -/
def pyIsDigitL (l : List Char) : Bool := !l.isEmpty && l.all (·.isDigit)

/-- Value of a string of decimal digits (Python `int(...)` on an `isdigit` string). -/
def digitsToNat (l : List Char) : Nat := l.foldl (fun n c => n * 10 + (c.toNat - '0'.toNat)) 0

/-- If `pat` occurs literally at the head of the input, return the remainder. -/
def takeAfterLit : List Char → List Char → Option (List Char)
  | [], cs => some cs
  | _ :: _, [] => none
  | p :: ps, c :: cs => if c == p then takeAfterLit ps cs else none

/-- Case-insensitive version of `takeAfterLit` (for `(?i)` regex literals). -/
def takeAfterLitCI : List Char → List Char → Option (List Char)
  | [], cs => some cs
  | _ :: _, [] => none
  | p :: ps, c :: cs => if c.toLower == p.toLower then takeAfterLitCI ps cs else none

/-- Python `str.replace(pat, rep)`: replace all occurrences, scanning left to
right, non-overlapping.  `fuel` is instantiated with the input length. -/
def replaceAllAux (pat rep : List Char) : Nat → List Char → List Char
  | _, [] => []
  | 0, cs => cs
  | fuel + 1, c :: cs =>
    match takeAfterLit pat (c :: cs) with
    | some rest => rep ++ replaceAllAux pat rep fuel rest
    | none => c :: replaceAllAux pat rep fuel cs

/-- Python `str.replace` on `String`. -/
def pyReplace (s pat rep : String) : String :=
  ⟨replaceAllAux pat.data rep.data s.data.length s.data⟩

/-- Python `list(dict.fromkeys(l))`, with `seen` the accumulator of keys. -/
def pyDedupAux {α : Type} [DecidableEq α] : List α → List α → List α
  | _, [] => []
  | seen, x :: xs => if x ∈ seen then pyDedupAux seen xs else x :: pyDedupAux (x :: seen) xs

/-- Python `list(dict.fromkeys(l))`: de-duplicate keeping first occurrences in order. -/
def pyDedup {α : Type} [DecidableEq α] (l : List α) : List α := pyDedupAux [] l

/-- Helper for `splitOnChar`: returns (chars before the first separator as seen
from the right, remaining groups).  Processing is right-to-left so the result
is a plain structural recursion. -/
def splitAux (sep : Char) : List Char → List Char × List (List Char)
  | [] => ([], [])
  | c :: cs =>
    let r := splitAux sep cs
    if c == sep then ([], r.1 :: r.2) else (c :: r.1, r.2)

/-- Python `str.split(sep)` for a one-character separator: no collapsing of
adjacent separators, empty input gives `[""]`. -/
def splitOnChar (sep : Char) (l : List Char) : List (List Char) :=
  (splitAux sep l).1 :: (splitAux sep l).2

/-- Python `sep.join(parts)` for a one-character separator. -/
def joinChar (sep : Char) : List (List Char) → List Char
  | [] => []
  | [x] => x
  | x :: y :: xs => x ++ sep :: joinChar sep (y :: xs)

/-- Python string comparison (lexicographic by code point). -/
def charListLe : List Char → List Char → Bool
  | [], _ => true
  | _ :: _, [] => false
  | a :: as, b :: bs => if a < b then true else if b < a then false else charListLe as bs

/-- `≤` on strings as Python compares them. -/
def strLeB (a b : String) : Bool := charListLe a.data b.data

/-- Insert into a `strLeB`-sorted list. -/
def insertSorted (x : String) : List String → List String
  | [] => [x]
  | y :: ys => if strLeB x y then x :: y :: ys else y :: insertSorted x ys

/-- Python `sorted` on a list of strings (used by the sources only on
de-duplicated sets, where any sorted arrangement is unique). -/
def sortStrings (l : List String) : List String := l.foldr insertSorted []

/-- Python `sorted(set(l))`. -/
def sortedDedup (l : List String) : List String := sortStrings (pyDedup l)

/-! ### The CVE regular expression

`DataCleaner.CVE_RE = re.compile(r'\bCVE[-]?\d{4}[-]\d{4,7}\b', re.IGNORECASE)`
(`src/data_pipeline/data_cleaner.py:21`).  The embedding follows Python's
backtracking semantics: the leading `\b` requires the previous character to be
a non-word character (the following `C` is a word character); `\d{4}` is an
exact count, so its four digits must be followed by the literal hyphen; the
greedy `\d{4,7}\b` succeeds exactly when the full digit run at that point has
length 4..7 and is followed by end-of-input or a non-word character (any
shorter prefix of a longer run is followed by a digit, so backtracking cannot
rescue a failed boundary). -/

/-- Longest run of decimal digits at the head; returns (digits, rest). -/
def spanDigits : List Char → List Char × List Char
  | [] => ([], [])
  | c :: cs =>
    if c.isDigit then
      let r := spanDigits cs
      (c :: r.1, r.2)
    else ([], c :: cs)

/-- The trailing `\b`: end of input or a non-word character next. -/
def boundaryAfter : List Char → Bool
  | [] => true
  | c :: _ => !isWordChar c

/-- Match the regex tail `\d{4}[-]\d{4,7}\b` at the head of `cs`;
returns (matched characters, rest). -/
def cveTail (cs : List Char) : Option (List Char × List Char) :=
  let s1 := spanDigits cs
  if s1.1.length = 4 then
    match s1.2 with
    | '-' :: r2 =>
      let s2 := spanDigits r2
      if 4 ≤ s2.1.length ∧ s2.1.length ≤ 7 ∧ boundaryAfter s2.2 = true then
        some (s1.1 ++ '-' :: s2.1, s2.2)
      else none
    | _ => none
  else none

/-- The greedy optional hyphen `[-]?` followed by `cveTail`, with backtracking:
if consuming a leading `-` fails, retry without consuming it. -/
def cveOpt : List Char → Option (List Char × List Char)
  | '-' :: rest =>
    (match cveTail rest with
     | some mr => some ('-' :: mr.1, mr.2)
     | none => cveTail ('-' :: rest))
  | cs => cveTail cs

/-- Try to match `CVE_RE` at the head of `cs`; `prevWord` says whether the
character before `cs` is a word character (for the leading `\b`). -/
def cveAt (prevWord : Bool) (cs : List Char) : Option (List Char × List Char) :=
  if prevWord then none
  else
    match cs with
    | c1 :: c2 :: c3 :: rest =>
      if c1.toLower == 'c' && c2.toLower == 'v' && c3.toLower == 'e' then
        match cveOpt rest with
        | some mr => some (c1 :: c2 :: c3 :: mr.1, mr.2)
        | none => none
      else none
    | _ => none

/-- `CVE_RE.search`: leftmost match, scanning left to right. -/
def cveSearchAux : Bool → List Char → Option (List Char)
  | _, [] => none
  | prevWord, c :: cs =>
    match cveAt prevWord (c :: cs) with
    | some mr => some mr.1
    | none => cveSearchAux (isWordChar c) cs

/-- `CVE_RE.findall`: non-overlapping matches left to right.  After a match the
scan resumes at the match end; the last matched character is a digit, hence a
word character, so `prevWord` is `true` there.  `fuel` is the input length. -/
def cveFindallAux : Nat → Bool → List Char → List (List Char)
  | 0, _, _ => []
  | _, _, [] => []
  | fuel + 1, prevWord, c :: cs =>
    match cveAt prevWord (c :: cs) with
    | some mr => mr.1 :: cveFindallAux fuel true mr.2
    | none => cveFindallAux fuel (isWordChar c) cs

/-- `CVE_RE.findall` on a string. -/
def cveFindall (s : String) : List String :=
  (cveFindallAux s.data.length false s.data).map (fun l => (⟨l⟩ : String))

/-- `DataCleaner.normalize_cve_id` (`src/data_pipeline/data_cleaner.py:27-40`):
search `CVE_RE`; on failure, strip+uppercase and, when the candidate starts
with `CVE` but not `CVE-`, replace every `CVE` by `CVE-`, then search again;
the found match is upper-cased.  `none` models Python `None`. -/
def normalize_cve_id (raw : String) : Option String :=
  if raw = "" then none
  else
    match cveSearchAux false raw.data with
    | some m => some ⟨pyUpperL m⟩
    | none =>
      let cand0 := pyUpperL (pyStripL raw.data)
      let cand :=
        if (takeAfterLit "CVE".data cand0).isSome && !(takeAfterLit "CVE-".data cand0).isSome
        then replaceAllAux "CVE".data "CVE-".data cand0.length cand0
        else cand0
      match cveSearchAux false cand with
      | some m => some ⟨pyUpperL m⟩
      | none => none

/-! ### VulnerabilitySourceAggregator: the merge loop of `CVECollector.collect`
(`src/data_pipeline/cve_collector.py:422-448`).  A raw source record; string
fields use `""` for Python `None`/missing, as every read is truthiness-guarded. -/

structure SourceRecord where
  id : String
  summary : String
  published : String
  modified : String
  references : List String
  source : String
deriving Repr, DecidableEq

/-- One scalar-field step of the merge: fill the base field only if it is
currently empty and the incoming one is not (`if not base.get(f) and item.get(f)`). -/
def fillEmpty (base incoming : String) : String :=
  if base = "" ∧ incoming ≠ "" then incoming else base

/-- `source` tags: split both on `|`, set-union, drop empties, sort, re-join.
Python builds a set before sorting; since the result is sorted, modelling the
set by first-occurrence de-duplication is order-equivalent. -/
def joinSources (a b : String) : String :=
  let sa := if a = "" then [] else (splitOnChar '|' a.data).map (fun l => (⟨l⟩ : String))
  let sb := (splitOnChar '|' b.data).map (fun l => (⟨l⟩ : String))
  ⟨joinChar '|' ((sortStrings ((pyDedup (sa ++ sb)).filter (fun s => s ≠ ""))).map String.data)⟩

/-- Merge a later record `item` into the canonical entry `base` for the same id
(the `else` branch of the merge loop).  The Python code mutates the independent
fields one after the other; the record update is the same function.
`references` is a Python set union whose iteration order is unspecified; the
model fixes first-occurrence order (no claim depends on that order). -/
def mergeInto (base item : SourceRecord) : SourceRecord :=
  { base with
    summary := fillEmpty base.summary item.summary,
    published := fillEmpty base.published item.published,
    modified := fillEmpty base.modified item.modified,
    references := pyDedup (base.references ++ item.references),
    source := joinSources base.source item.source }

/-- Update the entry keyed `cid` in the insertion-ordered association list. -/
def updateAssoc (m : List (String × SourceRecord)) (cid : String) (item : SourceRecord) :
    List (String × SourceRecord) :=
  m.map (fun kv => if kv.1 == cid then (kv.1, mergeInto kv.2 item) else kv)

/-- One iteration of the merge loop: skip falsy ids; first record for an id
seeds the entry (`merged[cid] = dict(item)`), later ones are merged in. -/
def collectStep (m : List (String × SourceRecord)) (item : SourceRecord) :
    List (String × SourceRecord) :=
  if item.id = "" then m
  else if (m.find? (fun kv => kv.1 == item.id)).isSome then updateAssoc m item.id item
  else m ++ [(item.id, item)]

/-- The whole merge: fold the loop over `results` and take `list(merged.values())`
(a Python dict iterates in key-insertion order). -/
def collectMerge (results : List SourceRecord) : List SourceRecord :=
  (results.foldl collectStep []).map (·.2)

/-- First non-empty string in a list, `""` if none (the merge's field policy). -/
def firstNonEmpty (xs : List String) : String := ((xs.filter (fun s => s ≠ "")).headD "")

/-! ### CommitHistoryExtractor: `GitCrawler.crawl` log parsing
(`src/data_pipeline/git_crawler.py:155-211`). -/

structure CommitRecord where
  hash : String
  author_name : String
  author_email : String
  date : String
  subject : String
  files : List String
  files_changed : Nat
  insertions : Nat
  deletions : Nat
deriving Repr, DecidableEq

/-- The unit-separator byte used as the `git log` format field separator. -/
def fieldSep : Char := '\x1f'

/-- Parser state: the commit under construction and the finished ones. -/
structure CrawlState where
  current : Option CommitRecord
  commits : List CommitRecord
deriving Repr, DecidableEq

/-- `finalize_current`: append the commit under construction, if any. -/
def finalizeCurrent (st : CrawlState) : CrawlState :=
  match st.current with
  | none => st
  | some c => ⟨none, st.commits ++ [c]⟩

/-- Python `line.strip('\r\n')`. -/
def stripCrLfL (l : List Char) : List Char :=
  stripList (fun c => c == '\r' || c == '\n') l

/-- One numstat line applied to the commit under construction: count the file,
record a non-empty path, and add insertions/deletions only for numeric tokens
(a binary file's `-` fails `isdigit` and is never coerced to 0). -/
def applyNumstat (cur : CommitRecord) (ins_s del_s path : List Char) : CommitRecord :=
  let cur := { cur with files_changed := cur.files_changed + 1 }
  let cur := if path ≠ [] then { cur with files := cur.files ++ [(⟨path⟩ : String)] } else cur
  let cur := if pyIsDigitL ins_s then { cur with insertions := cur.insertions + digitsToNat ins_s } else cur
  if pyIsDigitL del_s then { cur with deletions := cur.deletions + digitsToNat del_s } else cur

/-- The per-line step of `crawl`'s parsing loop: strip `\r\n`; skip blank
lines; a line containing the field separator is a commit header (ignored when
it has fewer than 5 fields, otherwise it finalizes the current commit and
starts a new one); any other line is a numstat line for the current commit
(ignored when there is none or it has fewer than 3 tab-separated parts). -/
def processLineChars (st : CrawlState) (rawLine : List Char) : CrawlState :=
  let line := stripCrLfL rawLine
  if pyStripL line = [] then st
  else if line.any (· == fieldSep) then
    let parts := splitOnChar fieldSep line
    if parts.length < 5 then st
    else
      match parts with
      | h :: an :: ae :: d :: s :: _ =>
        let st := finalizeCurrent st
        { st with current := some ⟨⟨h⟩, ⟨an⟩, ⟨ae⟩, ⟨d⟩, ⟨s⟩, [], 0, 0, 0⟩ }
      | _ => st
  else
    match st.current with
    | none => st
    | some cur =>
      let parts := splitOnChar '\t' line
      if parts.length < 3 then st
      else
        let ins_s := parts.headD []
        let del_s := (parts.drop 1).headD []
        let path := pyStripL (joinChar '\t' (parts.drop 2))
        { st with current := some (applyNumstat cur ins_s del_s path) }

/-- `crawl`'s parsing of the whole `git log` output.  Lines are split on `\n`;
Python `splitlines` also handles `\r\n` (the subsequent `strip('\r\n')` makes
the two equivalent) and drops a trailing terminator rather than yielding a
final empty element, which the blank-line skip makes equivalent as well. -/
def crawlParse (out : String) : List CommitRecord :=
  if out = "" then []
  else
    let st := (splitOnChar '\n' out.data).foldl processLineChars ⟨none, []⟩
    (finalizeCurrent st).commits

/-! ### EvidenceLinker (`tools/run_link_commits.py`) and
`DataCleaner.associate_with_commits` (`src/data_pipeline/data_cleaner.py:84-117`).

A vulnerability record carries the seven fields produced by `clean_cves` plus
the fields the linker adds.  Python dicts gain those keys along the pipeline;
since every read in the sources uses a falsy default (`get(...) or []`,
`get('matched')`), modelling them as always-present fields with the falsy
default is behaviour-preserving.  `evidence.commit_shas`/`evidence.pr_hits`
use `[]` for "key absent": the code only ever assigns non-empty values and
never reads the keys. -/

structure Evidence where
  urls : List String
  commit_shas : List String
  pr_hits : List (String × List String)
deriving Repr, DecidableEq

structure VulnRecord where
  id : String
  raw_id : String
  summary : String
  published : String
  modified : String
  references : List String
  source : String
  matched : Bool
  matched_commits : List String
  matched_commits_count : Nat
  match_types : List String
  evidence : Evidence
deriving Repr, DecidableEq

/-- Append `h` to the bucket of `cid` (`cve_to_hashes.setdefault(cid, []).append(h)`),
keys in first-insertion order. -/
def indexAppend (idx : List (String × List String)) (cid h : String) :
    List (String × List String) :=
  if (idx.find? (fun kv => kv.1 == cid)).isSome
  then idx.map (fun kv => if kv.1 == cid then (kv.1, kv.2 ++ [h]) else kv)
  else idx ++ [(cid, [h])]

/-- The Tier A inverted index: for every commit with truthy hash and subject,
every `CVE_RE` match in the subject is normalized and the commit hash appended
to that id's bucket (`associate_with_commits`, first loop). -/
def buildIndex (commits : List CommitRecord) : List (String × List String) :=
  commits.foldl
    (fun idx c =>
      if c.hash = "" ∨ c.subject = "" then idx
      else
        (cveFindall c.subject).foldl
          (fun idx raw =>
            match normalize_cve_id raw with
            | none => idx
            | some cid => if cid = "" then idx else indexAppend idx cid c.hash)
          idx)
    []

/-- `cve_to_hashes.get(cid, [])`. -/
def lookupIdx (idx : List (String × List String)) (cid : String) : List String :=
  ((idx.find? (fun kv => kv.1 == cid)).map (·.2)).getD []

/-- The per-record body of `associate_with_commits`' second loop: a fresh
`dict(cve)` copy whose `matched`/`matched_commits`/`matched_commits_count` are
set from the (first-occurrence de-duplicated) bucket of the record's id. -/
def associateOne (idx : List (String × List String)) (cve : VulnRecord) : VulnRecord :=
  let matched_hashes := if cve.id ≠ "" then pyDedup (lookupIdx idx cve.id) else []
  { cve with
    matched := !matched_hashes.isEmpty,
    matched_commits := matched_hashes,
    matched_commits_count := matched_hashes.length }

/-- `DataCleaner.associate_with_commits`. -/
def associate_with_commits (cves : List VulnRecord) (commits : List CommitRecord) :
    List VulnRecord :=
  cves.map (associateOne (buildIndex commits))

/-- The strict-match tagging loop of `run_link_commits.main` (lines 133-138):
`setdefault('match_types', [])` is the identity in the model, and a matched
record gets `sorted(set(match_types) | {'cve_in_subject'})`. -/
def tierA_mark (item : VulnRecord) : VulnRecord :=
  if item.matched
  then { item with match_types := sortedDedup (item.match_types ++ ["cve_in_subject"]) }
  else item

/-! #### Reference-URL extraction
`_COMMIT_SHA_RE` accepts, case-insensitively, the literal `/commit/` or the
GitLab dash-commit segment (slash, dash, slash, `commit`, slash) followed by a
captured group of 7 to 40 hex characters; `_PR_RE` accepts `/pull/` or
`/pulls/` followed by a captured group of digits (`tools/run_link_commits.py:34-35`);
`findall` returns group 1. -/

/-- Hex digit as `(?i)[0-9a-f]` accepts it. -/
def isHexChar (c : Char) : Bool :=
  c.isDigit || ('a' ≤ c && c ≤ 'f') || ('A' ≤ c && c ≤ 'F')

/-- Longest run of hex digits at the head. -/
def spanHex : List Char → List Char × List Char
  | [] => ([], [])
  | c :: cs =>
    if isHexChar c then
      let r := spanHex cs
      (c :: r.1, r.2)
    else ([], c :: cs)

/-- Match `_COMMIT_SHA_RE` at the head: one of the two literal alternatives
(`/commit/` first; where it matches, the dash-commit form cannot, so
committing to the first successful alternative is exact), then greedily 7..40
hex characters (group 1).  Returns (group, rest after the match). -/
def shaAt (cs : List Char) : Option (List Char × List Char) :=
  let after :=
    match takeAfterLitCI "/commit/".data cs with
    | some r => some r
    | none => takeAfterLitCI "/-/commit/".data cs
  match after with
  | none => none
  | some r =>
    let s := spanHex r
    if s.1.length < 7 then none
    else some (s.1.take 40, s.1.drop 40 ++ s.2)

/-- `_COMMIT_SHA_RE.findall`: scan left to right, resuming after each match. -/
def shaFindallAux : Nat → List Char → List (List Char)
  | 0, _ => []
  | _, [] => []
  | fuel + 1, c :: cs =>
    match shaAt (c :: cs) with
    | some gr => gr.1 :: shaFindallAux fuel gr.2
    | none => shaFindallAux fuel cs

def shaFindall (s : String) : List String :=
  (shaFindallAux s.data.length s.data).map (fun l => (⟨l⟩ : String))

/-- Match `_PR_RE` at the head, with the regex's backtracking: try `/pull/`
then digits; if that leaves no digit, fall back to `/pulls/` then digits.
Returns (digit group, rest). -/
def prAt (cs : List Char) : Option (List Char × List Char) :=
  match takeAfterLitCI "/pull/".data cs with
  | some r =>
    let d := spanDigits r
    if d.1 ≠ [] then some (d.1, d.2)
    else
      match takeAfterLitCI "/pulls/".data cs with
      | some r2 =>
        let d2 := spanDigits r2
        if d2.1 ≠ [] then some (d2.1, d2.2) else none
      | none => none
  | none =>
    match takeAfterLitCI "/pulls/".data cs with
    | some r2 =>
      let d2 := spanDigits r2
      if d2.1 ≠ [] then some (d2.1, d2.2) else none
    | none => none

/-- `_PR_RE.findall`, each group converted by Python `int`. -/
def prFindallAux : Nat → List Char → List Nat
  | 0, _ => []
  | _, [] => []
  | fuel + 1, c :: cs =>
    match prAt (c :: cs) with
    | some gr => digitsToNat gr.1 :: prFindallAux fuel gr.2
    | none => prFindallAux fuel cs

def prFindall (s : String) : List Nat :=
  prFindallAux s.data.length s.data

/-- `_extract_strong_signals(refs)` (`tools/run_link_commits.py:38-62`):
keep stripped non-empty string references as urls, collect lower-cased commit
SHAs and PR numbers from every url, and de-duplicate all three lists.  (The
Python also accepts `{'url': ...}` dict entries; the model covers the string
form, which is what the pipeline's own `clean_cves` produces.) -/
def extract_strong_signals (refs : List String) :
    List String × List Nat × List String :=
  let urls := (refs.filter (fun r => pyStrip r ≠ "")).map pyStrip
  let commit_shas :=
    urls.foldl (fun acc u => acc ++ (shaFindall u).map (fun m => (⟨pyLowerL m.data⟩ : String))) []
  let pr_numbers := urls.foldl (fun acc u => acc ++ prFindall u) []
  (pyDedup commit_shas, pyDedup pr_numbers, pyDedup urls)

/-- A git point query issued by the Tier B/C phase (instrumentation of the
calls to `crawler.commit_exists` and `crawler.grep_commits`). -/
inductive GitQuery where
  | commitExistsQ (sha : String)
  | grepQ (pat : String) (maxHits : Nat)
deriving Repr, DecidableEq

/-- Tier B scan over the candidate SHAs: every candidate is checked with
`commit_exists`; only validated ones are kept, in order. -/
def tierB_scan (ce : String → Bool) : List String → List String × List GitQuery
  | [] => ([], [])
  | s :: rest =>
    let r := tierB_scan ce rest
    (if ce s then s :: r.1 else r.1, GitQuery.commitExistsQ s :: r.2)

/-- The ordered message-pattern templates tried for PR number `pr`
(`tools/run_link_commits.py:172-177`). -/
def prPatterns (pr : Nat) : List String :=
  ["Merge pull request #" ++ toString pr,
   "pull request #" ++ toString pr,
   "PR #" ++ toString pr,
   "#" ++ toString pr]

/-- Try the templates in order, stopping at the first one whose grep returns
any hits; returns (hits of that template, greps issued). -/
def tryPatterns (gr : String → Nat → List String) (maxHits : Nat) :
    List String → List String × List GitQuery
  | [] => ([], [])
  | p :: ps =>
    let hits := gr p maxHits
    if hits ≠ [] then (hits, [GitQuery.grepQ p maxHits])
    else
      let r := tryPatterns gr maxHits ps
      (r.1, GitQuery.grepQ p maxHits :: r.2)

/-- Tier C loop over the PR numbers: per PR, the first successful template's
hits are de-duplicated, recorded under `str(pr)` and appended to the matched
hashes.  Returns (pr_hits, appended hashes, greps issued). -/
def tierC_loop (gr : String → Nat → List String) (maxPrHits : Nat) :
    List Nat → List (String × List String) × List String × List GitQuery
  | [] => ([], [], [])
  | pr :: rest =>
    let t := tryPatterns gr maxPrHits (prPatterns pr)
    let r := tierC_loop gr maxPrHits rest
    if t.1 ≠ [] then
      ((toString pr, pyDedup t.1) :: r.1, pyDedup t.1 ++ r.2.1, t.2 ++ r.2.2)
    else (r.1, r.2.1, t.2 ++ r.2.2)

/-- The Tier B/C body of `run_link_commits.main` (lines 144-200) for one
record, instrumented with the git queries it issues.  A record already matched
is skipped outright (`if item.get('matched'): continue`): unchanged, and no
reference scanning or git query happens for it. -/
def tierBC (ce : String → Bool) (gr : String → Nat → List String) (maxPrHits : Nat)
    (item : VulnRecord) : VulnRecord × List GitQuery :=
  if item.matched then (item, [])
  else
    let ex := extract_strong_signals item.references
    let ev0 := { item.evidence with urls := pyDedup (item.evidence.urls ++ ex.2.2) }
    let b := tierB_scan ce ex.1
    let valid_shas := b.1
    let ev1 := if valid_shas ≠ [] then { ev0 with commit_shas := valid_shas } else ev0
    let c := tierC_loop gr maxPrHits ex.2.1
    let pr_hits := c.1
    let ev2 := if pr_hits ≠ [] then { ev1 with pr_hits := pr_hits } else ev1
    let tags := (if valid_shas ≠ [] then ["commit_reference"] else []) ++
                (if pr_hits ≠ [] then ["pr_reference"] else [])
    let final := pyDedup (item.matched_commits ++ valid_shas ++ c.2.1)
    ({ item with
        matched_commits := final,
        matched_commits_count := final.length,
        match_types := sortedDedup (item.match_types ++ tags),
        evidence := ev2,
        matched := !final.isEmpty },
     b.2 ++ c.2.2)

/-- The Tier A phase of the linker: strict association then tagging. -/
def tierAPhase (cves : List VulnRecord) (commits : List CommitRecord) : List VulnRecord :=
  (associate_with_commits cves commits).map tierA_mark

/-- The whole linker over abstract git point-query oracles `ce`
(`commit_exists`) and `gr` (`grep_commits`). -/
def linkRecords (ce : String → Bool) (gr : String → Nat → List String) (maxPrHits : Nat)
    (cves : List VulnRecord) (commits : List CommitRecord) : List VulnRecord :=
  (tierAPhase cves commits).map (fun it => (tierBC ce gr maxPrHits it).1)

/-! ### `GitCrawler.commit_exists` over an abstract subprocess
(`src/data_pipeline/git_crawler.py:36-55`). -/

/-- A completed subprocess (`subprocess.CompletedProcess`). -/
structure ProcResult where
  returncode : Int
  stdout : String
  stderr : String
deriving Repr, DecidableEq

/-- `GitCrawler.commit_exists` over an abstract `_run_git`: `runGit repo args`
is `.error ()` when the subprocess cannot be spawned (Python raises
`FileNotFoundError`, e.g. git not installed).  `commit_exists` has no
`try`/`except`, so that exception propagates (`.error`); a completed process
yields `returncode == 0`. -/
def commit_exists (runGit : String → List String → Except Unit ProcResult)
    (repoPath sha : String) : Except Unit Bool :=
  if sha = "" then .ok false
  else
    match runGit repoPath ["cat-file", "-e", sha ++ "^\x7bcommit\x7d"] with
    | .ok proc => .ok (proc.returncode == 0)
    | .error e => .error e

/-- The synthetic git log stream of the parsing scenario: one commit header,
one text-file numstat line and one binary-file numstat line. -/
def gitLogExample : String :=
  "h1\x1fAlice\x1fa@x.com\x1f2020-01-01\x1fFix stuff\n3\t1\tfoo.py\n-\t-\tbin.dat"

/-- The commit record the scenario must produce. -/
def gitLogExampleCommit : CommitRecord :=
  ⟨"h1", "Alice", "a@x.com", "2020-01-01", "Fix stuff", ["foo.py", "bin.dat"], 2, 3, 1⟩

/-- The record invariants claimed for the linker's output: `matched` iff a
non-empty `matched_commits`; `match_types` non-empty iff `matched`;
`matched_commits` duplicate-free (its own first-occurrence de-duplication);
and `matched_commits_count` equal to the length of `matched_commits`. -/
def linkInvariant (v : VulnRecord) : Prop :=
  (v.matched = true ↔ v.matched_commits ≠ []) ∧
  (v.match_types ≠ [] ↔ v.matched = true) ∧
  v.matched_commits.Nodup ∧
  v.matched_commits = pyDedup v.matched_commits ∧
  v.matched_commits_count = v.matched_commits.length

/-! ### Helper lemmas about the primitives -/

theorem mem_pyDedupAux {α : Type} [DecidableEq α] (x : α) :
    ∀ (l seen : List α), x ∈ pyDedupAux seen l ↔ (x ∈ l ∧ x ∉ seen) := by
  intro l
  induction l with
  | nil => intro seen; simp [pyDedupAux]
  | cons y ys ih =>
    intro seen
    by_cases hy : y ∈ seen
    · rw [show pyDedupAux seen (y :: ys) = pyDedupAux seen ys from by simp [pyDedupAux, hy]]
      rw [ih seen]
      constructor
      · exact fun ⟨h1, h2⟩ => ⟨List.mem_cons_of_mem _ h1, h2⟩
      · rintro ⟨h1, h2⟩
        rcases List.mem_cons.mp h1 with h | h
        · exact absurd (h ▸ hy) h2
        · exact ⟨h, h2⟩
    · rw [show pyDedupAux seen (y :: ys) = y :: pyDedupAux (y :: seen) ys from by
        simp [pyDedupAux, hy]]
      constructor
      · intro hx
        rcases List.mem_cons.mp hx with h | h
        · exact ⟨h ▸ List.mem_cons_self y ys, h ▸ hy⟩
        · obtain ⟨h1, h2⟩ := (ih (y :: seen)).mp h
          exact ⟨List.mem_cons_of_mem _ h1, fun hs => h2 (List.mem_cons_of_mem _ hs)⟩
      · rintro ⟨h1, h2⟩
        by_cases hxy : x = y
        · exact hxy ▸ List.mem_cons_self y _
        · rcases List.mem_cons.mp h1 with h | h
          · exact absurd h hxy
          · refine List.mem_cons_of_mem _ ((ih (y :: seen)).mpr ⟨h, ?_⟩)
            intro hs
            rcases List.mem_cons.mp hs with h' | h'
            · exact hxy h'
            · exact h2 h'

theorem mem_pyDedup {α : Type} [DecidableEq α] (x : α) (l : List α) :
    x ∈ pyDedup l ↔ x ∈ l := by
  rw [pyDedup, mem_pyDedupAux]; simp

theorem pyDedupAux_nodup {α : Type} [DecidableEq α] :
    ∀ (l seen : List α), (pyDedupAux seen l).Nodup := by
  intro l
  induction l with
  | nil => intro seen; simp [pyDedupAux]
  | cons y ys ih =>
    intro seen
    by_cases hy : y ∈ seen
    · rw [show pyDedupAux seen (y :: ys) = pyDedupAux seen ys from by simp [pyDedupAux, hy]]
      exact ih seen
    · rw [show pyDedupAux seen (y :: ys) = y :: pyDedupAux (y :: seen) ys from by
        simp [pyDedupAux, hy]]
      refine List.nodup_cons.mpr ⟨fun hmem => ?_, ih (y :: seen)⟩
      exact ((mem_pyDedupAux y ys (y :: seen)).mp hmem).2 (List.mem_cons_self y seen)

theorem pyDedup_nodup {α : Type} [DecidableEq α] (l : List α) : (pyDedup l).Nodup :=
  pyDedupAux_nodup l []

theorem pyDedupAux_eq_self {α : Type} [DecidableEq α] :
    ∀ (l seen : List α), l.Nodup → (∀ x ∈ l, x ∉ seen) → pyDedupAux seen l = l := by
  intro l
  induction l with
  | nil => intro seen _ _; rfl
  | cons y ys ih =>
    intro seen hnd hdisj
    rw [show pyDedupAux seen (y :: ys) = y :: pyDedupAux (y :: seen) ys from by
      simp [pyDedupAux, hdisj y (List.mem_cons_self y ys)]]
    have hnd' := List.nodup_cons.mp hnd
    congr 1
    refine ih (y :: seen) hnd'.2 (fun x hx hs => ?_)
    rcases List.mem_cons.mp hs with h | h
    · exact hnd'.1 (h ▸ hx)
    · exact hdisj x (List.mem_cons_of_mem _ hx) h

theorem pyDedup_eq_self {α : Type} [DecidableEq α] (l : List α) (h : l.Nodup) :
    pyDedup l = l :=
  pyDedupAux_eq_self l [] h (by simp)

theorem pyDedup_idem {α : Type} [DecidableEq α] (l : List α) :
    pyDedup (pyDedup l) = pyDedup l :=
  pyDedup_eq_self _ (pyDedup_nodup l)

theorem pyDedup_eq_nil_iff {α : Type} [DecidableEq α] (l : List α) :
    pyDedup l = [] ↔ l = [] := by
  cases l with
  | nil => simp [pyDedup, pyDedupAux]
  | cons x xs => simp [pyDedup, pyDedupAux]

theorem mem_insertSorted (a x : String) : ∀ l, a ∈ insertSorted x l ↔ a = x ∨ a ∈ l := by
  intro l
  induction l with
  | nil => simp [insertSorted]
  | cons y ys ih =>
    rw [insertSorted]
    split
    · simp
    · simp only [List.mem_cons, ih]
      tauto

theorem insertSorted_ne_nil (x : String) : ∀ l, insertSorted x l ≠ [] := by
  intro l
  cases l with
  | nil => simp [insertSorted]
  | cons y ys => rw [insertSorted]; split <;> simp

theorem mem_sortStrings (a : String) : ∀ l, a ∈ sortStrings l ↔ a ∈ l := by
  intro l
  induction l with
  | nil => simp [sortStrings]
  | cons x xs ih =>
    rw [show sortStrings (x :: xs) = insertSorted x (sortStrings xs) from rfl,
      mem_insertSorted, ih]
    simp

theorem sortStrings_eq_nil_iff : ∀ l, sortStrings l = [] ↔ l = [] := by
  intro l
  cases l with
  | nil => simp [sortStrings]
  | cons x xs =>
    simp only [show sortStrings (x :: xs) = insertSorted x (sortStrings xs) from rfl]
    have := insertSorted_ne_nil x (sortStrings xs)
    simp [this]

theorem mem_sortedDedup (a : String) (l : List String) : a ∈ sortedDedup l ↔ a ∈ l := by
  rw [sortedDedup, mem_sortStrings, mem_pyDedup]

theorem sortedDedup_eq_nil_iff (l : List String) : sortedDedup l = [] ↔ l = [] := by
  rw [sortedDedup, sortStrings_eq_nil_iff, pyDedup_eq_nil_iff]

theorem isEmpty_false_of_ne_nil {α : Type} {l : List α} (h : l ≠ []) :
    l.isEmpty = false := by
  cases l with
  | nil => exact absurd rfl h
  | cons x xs => rfl

theorem dropWhile_eq_self_of_all {α : Type} (p : α → Bool) (l : List α)
    (h : ∀ c ∈ l, p c = false) : l.dropWhile p = l := by
  cases l with
  | nil => rfl
  | cons c cs => rw [List.dropWhile_cons, h c (List.mem_cons_self c cs)]; simp

theorem mem_dropWhile_of_mem {α : Type} (p : α → Bool) {c : α} (hc : p c = false) :
    ∀ {l : List α}, c ∈ l → c ∈ l.dropWhile p := by
  intro l
  induction l with
  | nil => intro h; exact absurd h (List.not_mem_nil c)
  | cons y ys ih =>
    intro hm
    rw [List.dropWhile_cons]
    by_cases hy : p y = true
    · rw [if_pos hy]
      rcases List.mem_cons.mp hm with h | h
      · rw [h] at hc; rw [hc] at hy; exact absurd hy (by simp)
      · exact ih h
    · rw [if_neg hy]; exact hm

theorem mem_stripList {α : Type} (p : α → Bool) {c : α} {l : List α}
    (hc : p c = false) (hm : c ∈ l) : c ∈ stripList p l := by
  unfold stripList
  rw [List.mem_reverse]
  exact mem_dropWhile_of_mem p hc (by rw [List.mem_reverse]; exact mem_dropWhile_of_mem p hc hm)

theorem stripList_ne_nil {α : Type} (p : α → Bool) {c : α} {l : List α}
    (hc : p c = false) (hm : c ∈ l) : stripList p l ≠ [] :=
  List.ne_nil_of_mem (mem_stripList p hc hm)

theorem stripList_eq_self {α : Type} (p : α → Bool) (l : List α)
    (h : ∀ c ∈ l, p c = false) : stripList p l = l := by
  unfold stripList
  rw [dropWhile_eq_self_of_all p l h, dropWhile_eq_self_of_all p l.reverse
    (fun c hc => h c (List.mem_reverse.mp hc)), List.reverse_reverse]

theorem joinChar_splitAux (sep : Char) :
    ∀ l : List Char, joinChar sep ((splitAux sep l).1 :: (splitAux sep l).2) = l := by
  intro l
  induction l with
  | nil => rfl
  | cons c cs ih =>
    by_cases hc : c == sep
    · rw [show splitAux sep (c :: cs) =
          ([], (splitAux sep cs).1 :: (splitAux sep cs).2) from by simp [splitAux, hc]]
      rw [show joinChar sep ([] :: (splitAux sep cs).1 :: (splitAux sep cs).2) =
          sep :: joinChar sep ((splitAux sep cs).1 :: (splitAux sep cs).2) from rfl, ih]
      have : c = sep := by simpa using hc
      rw [this]
    · rw [show splitAux sep (c :: cs) =
          (c :: (splitAux sep cs).1, (splitAux sep cs).2) from by simp [splitAux, hc]]
      cases ht : (splitAux sep cs).2 with
      | nil =>
        rw [ht] at ih
        rw [show joinChar sep [c :: (splitAux sep cs).1] = c :: (splitAux sep cs).1 from rfl]
        rw [show joinChar sep [(splitAux sep cs).1] = (splitAux sep cs).1 from rfl] at ih
        rw [ih]
      | cons y ys =>
        rw [ht] at ih
        rw [show joinChar sep ((c :: (splitAux sep cs).1) :: y :: ys) =
            (c :: (splitAux sep cs).1) ++ sep :: joinChar sep (y :: ys) from rfl]
        rw [show joinChar sep ((splitAux sep cs).1 :: y :: ys) =
            (splitAux sep cs).1 ++ sep :: joinChar sep (y :: ys) from rfl] at ih
        rw [List.cons_append, ih]

theorem joinChar_splitOnChar (sep : Char) (l : List Char) :
    joinChar sep (splitOnChar sep l) = l :=
  joinChar_splitAux sep l

/-! ### Claim C4 -/

/-- Claim C4 (code bug): the spec asserts `normalizeId` maps `"CVE-2020-1234"`,
`"cve20201234"` and `"CVE 2020 1234"` (the latter two via the hyphen-repair
pass) to `"CVE-2020-1234"`.  The code agrees only on the first: its repair
pass inserts a hyphen after the `CVE` prefix but never between year and
sequence number (and, despite its own comment, never replaces spaces), so the
repaired candidates `"CVE-20201234"` and `"CVE- 2020 1234"` still fail
`CVE_RE` and `normalize_cve_id` returns `None` for both. -/
theorem normalize_cve_id_repair_gap :
    normalize_cve_id "CVE-2020-1234" = some "CVE-2020-1234" ∧
    normalize_cve_id "cve20201234" = none ∧
    normalize_cve_id "CVE 2020 1234" = none := by
  refine ⟨?_, ?_, ?_⟩ <;> decide

/-! ### Claim C8 -/

/-- Claim C8 counterexample: `commit_exists` is claimed never to raise, with
"git not installed" yielding `false`.  But a spawn failure (Python
`FileNotFoundError` from `subprocess.run` when the git executable is missing)
is not a non-zero exit: `commit_exists` has no `try`/`except` (unlike
`_is_git_repo`), so the exception propagates — modelled by `Except.error ()`
— instead of yielding `.ok false`. -/
theorem commit_exists_spawn_error_propagates :
    commit_exists (fun _ _ => Except.error ()) "/repo" "deadbeef" = Except.error () := rfl

/-- Claim C8 (amended): whenever the underlying git invocation completes (no
spawn failure), `commit_exists` returns a boolean without raising: `false` for
an empty sha (no git call) and otherwise `true` exactly when the
`cat-file -e sha^{commit}` invocation exits with code 0 — any non-zero exit
yields `false`. -/
theorem commit_exists_completed_run (runGit : String → List String → Except Unit ProcResult)
    (repoPath sha : String) (p : ProcResult)
    (hrun : runGit repoPath ["cat-file", "-e", sha ++ "^\x7bcommit\x7d"] = Except.ok p) :
    commit_exists runGit repoPath sha =
      Except.ok (if sha = "" then false else p.returncode == 0) := by
  unfold commit_exists
  by_cases hsha : sha = ""
  · rw [if_pos hsha, if_pos hsha]
  · rw [if_neg hsha, if_neg hsha, hrun]

/-- Witness for the amended C8 theorem: a completed run with exit code 1
yields `.ok false` at a concrete input. -/
theorem commit_exists_completed_run_witness :
    commit_exists (fun _ _ => Except.ok ⟨1, "", ""⟩) "/repo" "deadbeef" = Except.ok false :=
  commit_exists_completed_run (fun _ _ => Except.ok ⟨1, "", ""⟩) "/repo" "deadbeef" ⟨1, "", ""⟩ rfl

/-! ### Claim C2 -/

/-- General binary-numstat step: a `-<TAB>-<TAB>path` line (no `\r`, `\n` or
field separator in `path`, path non-blank) applied to a commit under
construction increments `files_changed` and appends the stripped path, leaving
`insertions` and `deletions` unchanged. -/
theorem processLineChars_binary_step (cur : CommitRecord) (acc : List CommitRecord)
    (p : List Char) (hp : ∀ c ∈ p, c ≠ '\r' ∧ c ≠ '\n' ∧ c ≠ fieldSep)
    (hpath : pyStripL p ≠ []) :
    processLineChars ⟨some cur, acc⟩ ('-' :: '\t' :: '-' :: '\t' :: p) =
      ⟨some { cur with files_changed := cur.files_changed + 1,
                       files := cur.files ++ [(⟨pyStripL p⟩ : String)] }, acc⟩ := by
  have hline : ∀ c ∈ ('-' :: '\t' :: '-' :: '\t' :: p),
      (c == '\r' || c == '\n') = false := by
    intro c hc
    simp only [List.mem_cons] at hc
    rcases hc with rfl | rfl | rfl | rfl | hc
    · decide
    · decide
    · decide
    · decide
    · obtain ⟨h1, h2, _⟩ := hp c hc
      simp [h1, h2]
  have hstrip : stripCrLfL ('-' :: '\t' :: '-' :: '\t' :: p) =
      ('-' :: '\t' :: '-' :: '\t' :: p) :=
    stripList_eq_self _ _ hline
  have hblank : pyStripL ('-' :: '\t' :: '-' :: '\t' :: p) ≠ [] :=
    stripList_ne_nil isPySpace (c := '-') (by decide) (List.mem_cons_self _ _)
  have hany : (('-' :: '\t' :: '-' :: '\t' :: p).any (· == fieldSep)) = false := by
    simp only [List.any_cons]
    have hp' : p.any (· == fieldSep) = false := by
      rw [List.any_eq_false]
      intro c hc
      have := (hp c hc).2.2
      simp [this]
    rw [hp']
    decide
  have hsplit : splitOnChar '\t' ('-' :: '\t' :: '-' :: '\t' :: p) =
      ['-'] :: ['-'] :: splitOnChar '\t' p := rfl
  unfold processLineChars
  rw [hstrip, if_neg hblank, hany]
  simp only [Bool.false_eq_true, if_false]
  rw [hsplit]
  have hlen : ¬ (['-'] :: ['-'] :: splitOnChar '\t' p).length < 3 := by
    simp [splitOnChar]
  rw [if_neg hlen]
  simp only [List.headD, List.drop]
  unfold applyNumstat
  rw [joinChar_splitOnChar '\t' p]
  rw [show pyIsDigitL ['-'] = false from rfl]
  simp only [Bool.false_eq_true, if_false, if_pos hpath]

/-- Claim C2: parsing the synthetic log stream (one commit; text line
`3<TAB>1<TAB>foo.py`, binary line `-<TAB>-<TAB>bin.dat`) yields
`files_changed = 2`, `insertions = 3`, `deletions = 1`,
`files = ["foo.py", "bin.dat"]`; and in general a binary numstat line (`-`
tokens, which fail `isdigit` and are never coerced to 0) increments
`files_changed` and appends its path while leaving insertions and deletions
unchanged. -/
theorem crawl_binary_numstat :
    crawlParse gitLogExample = [gitLogExampleCommit] ∧
    ∀ (cur : CommitRecord) (acc : List CommitRecord) (p : List Char),
      (∀ c ∈ p, c ≠ '\r' ∧ c ≠ '\n' ∧ c ≠ fieldSep) →
      pyStripL p ≠ [] →
      processLineChars ⟨some cur, acc⟩ ('-' :: '\t' :: '-' :: '\t' :: p) =
        ⟨some { cur with files_changed := cur.files_changed + 1,
                         files := cur.files ++ [(⟨pyStripL p⟩ : String)] }, acc⟩ :=
  ⟨by decide, processLineChars_binary_step⟩

/-- Witness for C2: the general binary-line step applied at the concrete line
`-<TAB>-<TAB>bin.dat`, together with the closed scenario. -/
theorem crawl_binary_numstat_witness :
    crawlParse gitLogExample = [gitLogExampleCommit] ∧
    processLineChars ⟨some ⟨"h", "a", "e", "d", "s", [], 1, 3, 1⟩, []⟩
        ('-' :: '\t' :: '-' :: '\t' :: "bin.dat".data) =
      ⟨some ⟨"h", "a", "e", "d", "s", ["bin.dat"], 2, 3, 1⟩, []⟩ := by
  refine ⟨crawl_binary_numstat.1, ?_⟩
  have h := crawl_binary_numstat.2 ⟨"h", "a", "e", "d", "s", [], 1, 3, 1⟩ []
    "bin.dat".data (by decide) (by decide)
  exact h

/-! ### Claim C3 -/

theorem fillEmpty_of_empty (s : String) : fillEmpty "" s = s := by
  unfold fillEmpty
  by_cases h : s = ""
  · rw [h]; simp
  · rw [if_pos ⟨rfl, h⟩]

theorem fillEmpty_of_nonempty {b : String} (h : b ≠ "") (s : String) : fillEmpty b s = b := by
  unfold fillEmpty
  rw [if_neg (fun hc => h hc.1)]

theorem mergeInto_id (base item : SourceRecord) : (mergeInto base item).id = base.id := rfl

theorem mergeFold_id (l : List SourceRecord) (b : SourceRecord) :
    (l.foldl mergeInto b).id = b.id := by
  induction l generalizing b with
  | nil => rfl
  | cons x xs ih => rw [List.foldl_cons, ih, mergeInto_id]

theorem firstNonEmpty_cons (s : String) (xs : List String) :
    firstNonEmpty (s :: xs) = if s = "" then firstNonEmpty xs else s := by
  unfold firstNonEmpty
  rw [List.filter_cons]
  by_cases h : s = ""
  · simp [h]
  · simp [h]

theorem mergeFold_summary (l : List SourceRecord) (b : SourceRecord) :
    (l.foldl mergeInto b).summary =
      if b.summary = "" then firstNonEmpty (l.map (·.summary)) else b.summary := by
  induction l generalizing b with
  | nil =>
    by_cases h : b.summary = "" <;> simp [firstNonEmpty, h]
  | cons x xs ih =>
    rw [List.foldl_cons, ih, List.map_cons, firstNonEmpty_cons]
    by_cases hb : b.summary = ""
    · rw [show (mergeInto b x).summary = fillEmpty b.summary x.summary from rfl, hb,
        fillEmpty_of_empty]
      by_cases hx : x.summary = "" <;> simp [hx]
    · rw [show (mergeInto b x).summary = fillEmpty b.summary x.summary from rfl,
        fillEmpty_of_nonempty hb]
      simp [hb]

theorem mergeFold_published (l : List SourceRecord) (b : SourceRecord) :
    (l.foldl mergeInto b).published =
      if b.published = "" then firstNonEmpty (l.map (·.published)) else b.published := by
  induction l generalizing b with
  | nil =>
    by_cases h : b.published = "" <;> simp [firstNonEmpty, h]
  | cons x xs ih =>
    rw [List.foldl_cons, ih, List.map_cons, firstNonEmpty_cons]
    by_cases hb : b.published = ""
    · rw [show (mergeInto b x).published = fillEmpty b.published x.published from rfl, hb,
        fillEmpty_of_empty]
      by_cases hx : x.published = "" <;> simp [hx]
    · rw [show (mergeInto b x).published = fillEmpty b.published x.published from rfl,
        fillEmpty_of_nonempty hb]
      simp [hb]

theorem mergeFold_modified (l : List SourceRecord) (b : SourceRecord) :
    (l.foldl mergeInto b).modified =
      if b.modified = "" then firstNonEmpty (l.map (·.modified)) else b.modified := by
  induction l generalizing b with
  | nil =>
    by_cases h : b.modified = "" <;> simp [firstNonEmpty, h]
  | cons x xs ih =>
    rw [List.foldl_cons, ih, List.map_cons, firstNonEmpty_cons]
    by_cases hb : b.modified = ""
    · rw [show (mergeInto b x).modified = fillEmpty b.modified x.modified from rfl, hb,
        fillEmpty_of_empty]
      by_cases hx : x.modified = "" <;> simp [hx]
    · rw [show (mergeInto b x).modified = fillEmpty b.modified x.modified from rfl,
        fillEmpty_of_nonempty hb]
      simp [hb]

theorem collectStep_single (cid : String) (b item : SourceRecord)
    (hid : item.id = cid) (hcid : cid ≠ "") :
    collectStep [(cid, b)] item = [(cid, mergeInto b item)] := by
  unfold collectStep
  rw [if_neg (hid ▸ hcid)]
  rw [show (List.find? (fun kv => kv.1 == item.id) [(cid, b)]).isSome = true from by
    simp [List.find?, hid]]
  simp [updateAssoc, hid]

theorem collectFold_single (cid : String) (hcid : cid ≠ "") :
    ∀ (l : List SourceRecord) (b : SourceRecord), (∀ r ∈ l, r.id = cid) →
      l.foldl collectStep [(cid, b)] = [(cid, l.foldl mergeInto b)] := by
  intro l
  induction l with
  | nil => intro b _; rfl
  | cons x xs ih =>
    intro b hall
    rw [List.foldl_cons, collectStep_single cid b x (hall x (List.mem_cons_self x xs)) hcid,
      List.foldl_cons]
    exact ih (mergeInto b x) (fun r hr => hall r (List.mem_cons_of_mem x hr))

/-- Claim C3: merging all records that share one id, the first record seeds
the canonical entry and each of `summary`, `published`, `modified` ends up as
the first non-empty value in arrival order — a later record never overwrites a
populated field, so merging `""` then `"X"` yields `"X"`, and merging a
further `"Y"` still leaves `"X"`. -/
theorem collect_merge_first_non_empty_wins (cid : String) (l : List SourceRecord)
    (hcid : cid ≠ "") (hne : l ≠ []) (hall : ∀ r ∈ l, r.id = cid) :
    ∃ m, collectMerge l = [m] ∧ m.id = cid ∧
      m.summary = firstNonEmpty (l.map (·.summary)) ∧
      m.published = firstNonEmpty (l.map (·.published)) ∧
      m.modified = firstNonEmpty (l.map (·.modified)) := by
  cases l with
  | nil => exact absurd rfl hne
  | cons h t =>
    have hh : h.id = cid := hall h (List.mem_cons_self h t)
    have hstep : collectStep [] h = [(cid, h)] := by
      unfold collectStep
      rw [if_neg (hh ▸ hcid)]
      simp [List.find?, hh]
    refine ⟨t.foldl mergeInto h, ?_, ?_, ?_, ?_, ?_⟩
    · unfold collectMerge
      rw [List.foldl_cons, hstep,
        collectFold_single cid hcid t h (fun r hr => hall r (List.mem_cons_of_mem h hr))]
      rfl
    · rw [mergeFold_id, hh]
    · rw [mergeFold_summary, List.map_cons, firstNonEmpty_cons]
    · rw [mergeFold_published, List.map_cons, firstNonEmpty_cons]
    · rw [mergeFold_modified, List.map_cons, firstNonEmpty_cons]

/-- Witness for C3: the scenario `summary = ""`, then `"X"`, then `"Y"` (same
id) merges to `"X"`. -/
theorem collect_merge_first_non_empty_wins_witness :
    ∃ m, collectMerge
        [⟨"CVE-2020-0001", "", "", "", ["A"], "circl"⟩,
         ⟨"CVE-2020-0001", "X", "2020-01-01", "", ["B"], "osv"⟩,
         ⟨"CVE-2020-0001", "Y", "2021-01-01", "2021-02-02", [], "nvd"⟩] = [m] ∧
      m.summary = "X" := by
  obtain ⟨m, hm, _, hs, _, _⟩ := collect_merge_first_non_empty_wins "CVE-2020-0001"
    [⟨"CVE-2020-0001", "", "", "", ["A"], "circl"⟩,
     ⟨"CVE-2020-0001", "X", "2020-01-01", "", ["B"], "osv"⟩,
     ⟨"CVE-2020-0001", "Y", "2021-01-01", "2021-02-02", [], "nvd"⟩]
    (by decide) (by decide) (by decide)
  refine ⟨m, hm, ?_⟩
  rw [hs]
  decide

/-! ### Claim C5 -/

/-- Claim C5 counterexample: a source record whose id is missing/falsy is NOT
"passed through unmerged and retained" — `collect`'s merge loop drops it
outright (`if not cid: continue`), so it never appears in the output. -/
theorem collect_drops_idless_record :
    collectMerge [⟨"", "orphan summary", "2021-01-01", "", ["https://example.com/a"], "osv"⟩]
      = [] := by decide

theorem updateAssoc_keys (m : List (String × SourceRecord)) (cid : String)
    (item : SourceRecord) : (updateAssoc m cid item).map (·.1) = m.map (·.1) := by
  unfold updateAssoc
  rw [List.map_map]
  refine List.map_congr_left (fun kv _ => ?_)
  by_cases h : kv.1 == cid
  · simp only [Function.comp_apply, if_pos h]
  · simp only [Function.comp_apply, if_neg h]

theorem collectStep_keys_mono (m : List (String × SourceRecord)) (item : SourceRecord)
    (k : String) (h : k ∈ m.map (·.1)) : k ∈ (collectStep m item).map (·.1) := by
  unfold collectStep
  by_cases h0 : item.id = ""
  · rw [if_pos h0]; exact h
  · rw [if_neg h0]
    by_cases hf : (m.find? (fun kv => kv.1 == item.id)).isSome
    · rw [if_pos hf, updateAssoc_keys]; exact h
    · rw [if_neg hf, List.map_append]; exact List.mem_append_left _ h

theorem collectStep_id_mem (m : List (String × SourceRecord)) (item : SourceRecord)
    (h0 : item.id ≠ "") : item.id ∈ (collectStep m item).map (·.1) := by
  unfold collectStep
  rw [if_neg h0]
  by_cases hf : (m.find? (fun kv => kv.1 == item.id)).isSome
  · rw [if_pos hf, updateAssoc_keys]
    obtain ⟨kv, hkv, hp⟩ := List.find?_isSome.mp hf
    have : kv.1 = item.id := by simpa using hp
    exact this ▸ List.mem_map_of_mem (·.1) hkv
  · rw [if_neg hf, List.map_append]
    exact List.mem_append_right _ (by simp)

theorem collectFold_keys_mono (l : List SourceRecord) :
    ∀ (m : List (String × SourceRecord)) (k : String), k ∈ m.map (·.1) →
      k ∈ (l.foldl collectStep m).map (·.1) := by
  induction l with
  | nil => intro m k h; exact h
  | cons x xs ih =>
    intro m k h
    rw [List.foldl_cons]
    exact ih (collectStep m x) k (collectStep_keys_mono m x k h)

theorem collectFold_retains_key (l : List SourceRecord) :
    ∀ (m : List (String × SourceRecord)) (r : SourceRecord), r ∈ l → r.id ≠ "" →
      r.id ∈ (l.foldl collectStep m).map (·.1) := by
  induction l with
  | nil => intro m r h _; exact absurd h (List.not_mem_nil r)
  | cons x xs ih =>
    intro m r h hr
    rw [List.foldl_cons]
    rcases List.mem_cons.mp h with rfl | h
    · exact collectFold_keys_mono xs (collectStep m r) r.id (collectStep_id_mem m r hr)
    · exact ih (collectStep m x) r h hr

theorem collectStep_entry_ids (m : List (String × SourceRecord)) (item : SourceRecord)
    (hm : ∀ kv ∈ m, (kv.2).id = kv.1) :
    ∀ kv ∈ collectStep m item, (kv.2).id = kv.1 := by
  unfold collectStep
  by_cases h0 : item.id = ""
  · rw [if_pos h0]; exact hm
  · rw [if_neg h0]
    by_cases hf : (m.find? (fun kv => kv.1 == item.id)).isSome
    · rw [if_pos hf]
      intro kv hkv
      unfold updateAssoc at hkv
      obtain ⟨kv0, hkv0, heq⟩ := List.mem_map.mp hkv
      by_cases hk : kv0.1 == item.id
      · rw [if_pos hk] at heq
        rw [← heq]
        exact hm kv0 hkv0
      · rw [if_neg hk] at heq
        exact heq ▸ hm kv0 hkv0
    · rw [if_neg hf]
      intro kv hkv
      rcases List.mem_append.mp hkv with h | h
      · exact hm kv h
      · have : kv = (item.id, item) := by simpa using h
        rw [this]

theorem collectFold_entry_ids (l : List SourceRecord) :
    ∀ (m : List (String × SourceRecord)), (∀ kv ∈ m, (kv.2).id = kv.1) →
      ∀ kv ∈ l.foldl collectStep m, (kv.2).id = kv.1 := by
  induction l with
  | nil => intro m hm; exact hm
  | cons x xs ih =>
    intro m hm
    rw [List.foldl_cons]
    exact ih (collectStep m x) (collectStep_entry_ids m x hm)

theorem collectStep_new_key (k : String) (b : SourceRecord) (r : SourceRecord)
    (h : r.id ≠ "") (hk : r.id ≠ k) : collectStep [(k, b)] r = [(k, b), (r.id, r)] := by
  unfold collectStep
  rw [if_neg h]
  have hbeq : (k == r.id) = false := beq_eq_false_iff_ne.mpr (fun hc => hk hc.symm)
  simp [List.find?, hbeq]

/-- Claim C5 (amended): the aggregator's merge retains every record having a
non-empty raw id, keyed (and merged) by that raw id; records with a
missing/empty id are dropped (see the counterexample), not passed through.
With that amendment the end-to-end scenario holds: two records sharing one id
plus a third record with a distinct (non-CVE) id yield exactly 2 output
records, one merged, one passthrough. -/
theorem collect_retention_amended :
    (∀ (l : List SourceRecord) (r : SourceRecord), r ∈ l → r.id ≠ "" →
       r.id ∈ (collectMerge l).map (·.id)) ∧
    (∀ r1 r2 r3 : SourceRecord, r1.id ≠ "" → r2.id = r1.id → r3.id ≠ "" → r3.id ≠ r1.id →
       (collectMerge [r1, r2, r3]).length = 2) := by
  constructor
  · intro l r hmem hid
    have hkey := collectFold_retains_key l [] r hmem hid
    obtain ⟨kv, hkv, hk⟩ := List.mem_map.mp hkey
    have hident := collectFold_entry_ids l [] (by simp) kv hkv
    unfold collectMerge
    rw [List.map_map]
    refine List.mem_map.mpr ⟨kv, hkv, ?_⟩
    rw [show ((fun x => x.id) ∘ (·.2)) kv = (kv.2).id from rfl, hident, hk]
  · intro r1 r2 r3 h1 h2 h3 h43
    have hstep1 : collectStep [] r1 = [(r1.id, r1)] := by
      unfold collectStep
      rw [if_neg h1]
      simp [List.find?]
    have hstep2 : collectStep [(r1.id, r1)] r2 = [(r1.id, mergeInto r1 r2)] :=
      collectStep_single r1.id r1 r2 h2 h1
    have hstep3 : collectStep [(r1.id, mergeInto r1 r2)] r3 =
        [(r1.id, mergeInto r1 r2), (r3.id, r3)] :=
      collectStep_new_key r1.id (mergeInto r1 r2) r3 h3 h43
    unfold collectMerge
    rw [show List.foldl collectStep [] [r1, r2, r3] =
        collectStep (collectStep (collectStep [] r1) r2) r3 from rfl,
      hstep1, hstep2, hstep3]
    rfl

/-- Witness for the amended C5 theorem: a concrete retained non-empty-id
record, and the concrete 2-record scenario. -/
theorem collect_retention_amended_witness :
    "GHSA-77xx" ∈ (collectMerge [⟨"GHSA-77xx", "c", "", "", [], "github"⟩]).map (·.id) ∧
    (collectMerge [⟨"CVE-2020-1234", "a", "", "", ["A"], "circl"⟩,
                   ⟨"CVE-2020-1234", "b", "", "", ["B"], "osv"⟩,
                   ⟨"GHSA-77xx", "c", "", "", [], "github"⟩]).length = 2 := by
  constructor
  · exact collect_retention_amended.1 [⟨"GHSA-77xx", "c", "", "", [], "github"⟩]
      ⟨"GHSA-77xx", "c", "", "", [], "github"⟩ (by simp) (by decide)
  · exact collect_retention_amended.2
      ⟨"CVE-2020-1234", "a", "", "", ["A"], "circl"⟩
      ⟨"CVE-2020-1234", "b", "", "", ["B"], "osv"⟩
      ⟨"GHSA-77xx", "c", "", "", [], "github"⟩
      (by decide) (by decide) (by decide) (by decide)

/-! ### Claims C1, C6, C7 -/

theorem tierA_mark_of_matched (it : VulnRecord) (h : it.matched = true) :
    tierA_mark it =
      { it with match_types := sortedDedup (it.match_types ++ ["cve_in_subject"]) } := by
  unfold tierA_mark
  rw [h]
  simp

theorem tierBC_of_matched (ce : String → Bool) (gr : String → Nat → List String)
    (maxPrHits : Nat) (it : VulnRecord) (h : it.matched = true) :
    tierBC ce gr maxPrHits it = (it, []) := by
  unfold tierBC
  rw [h]
  simp

/-- Claim C1: a vulnerability whose normalized id has a non-empty bucket in
the commit-subject inverted index is marked matched by Tier A, with
`cve_in_subject` among its `match_types` and `matched_commits` equal to the
bucket in first-appearance de-duplicated order; and for such a record the Tier
B/C phase is a no-op issuing no git query — its reference URLs are never
scanned (`if item.get('matched'): continue`). -/
theorem tierA_match_short_circuit (commits : List CommitRecord) (v : VulnRecord)
    (ce : String → Bool) (gr : String → Nat → List String) (maxPrHits : Nat)
    (bucket : List String) (hid : v.id ≠ "")
    (hb : lookupIdx (buildIndex commits) v.id = bucket) (hne : bucket ≠ []) :
    (tierA_mark (associateOne (buildIndex commits) v)).matched = true ∧
    "cve_in_subject" ∈ (tierA_mark (associateOne (buildIndex commits) v)).match_types ∧
    (tierA_mark (associateOne (buildIndex commits) v)).matched_commits = pyDedup bucket ∧
    tierBC ce gr maxPrHits (tierA_mark (associateOne (buildIndex commits) v)) =
      (tierA_mark (associateOne (buildIndex commits) v), []) := by
  have hw : associateOne (buildIndex commits) v =
      { v with matched := !(pyDedup bucket).isEmpty,
               matched_commits := pyDedup bucket,
               matched_commits_count := (pyDedup bucket).length } := by
    unfold associateOne
    rw [if_pos hid, hb]
  have hmne : pyDedup bucket ≠ [] := fun hc => hne ((pyDedup_eq_nil_iff bucket).mp hc)
  have hwm : (associateOne (buildIndex commits) v).matched = true := by
    rw [hw]
    show (!(pyDedup bucket).isEmpty) = true
    rw [isEmpty_false_of_ne_nil hmne]
    decide
  have hmark := tierA_mark_of_matched _ hwm
  have hmatched : (tierA_mark (associateOne (buildIndex commits) v)).matched = true := by
    rw [hmark]; exact hwm
  refine ⟨hmatched, ?_, ?_, tierBC_of_matched ce gr maxPrHits _ hmatched⟩
  · rw [hmark]
    show "cve_in_subject" ∈ sortedDedup ((associateOne (buildIndex commits) v).match_types
      ++ ["cve_in_subject"])
    rw [mem_sortedDedup]
    simp
  · rw [hmark]
    show (associateOne (buildIndex commits) v).matched_commits = pyDedup bucket
    rw [hw]

/-- Witness for C1: the spec scenario — commit `abc123` with subject
`"Fix CVE-2021-9999 overflow"` and a record with id `CVE-2021-9999`. -/
theorem tierA_match_short_circuit_witness :
    (tierA_mark (associateOne
        (buildIndex [⟨"abc123", "A", "e", "2021-05-05", "Fix CVE-2021-9999 overflow", [], 1, 2, 0⟩])
        ⟨"CVE-2021-9999", "CVE-2021-9999", "", "", "", [], "", false, [], 0, [], ⟨[], [], []⟩⟩)).matched
      = true ∧
    "cve_in_subject" ∈ (tierA_mark (associateOne
        (buildIndex [⟨"abc123", "A", "e", "2021-05-05", "Fix CVE-2021-9999 overflow", [], 1, 2, 0⟩])
        ⟨"CVE-2021-9999", "CVE-2021-9999", "", "", "", [], "", false, [], 0, [], ⟨[], [], []⟩⟩)).match_types ∧
    (tierA_mark (associateOne
        (buildIndex [⟨"abc123", "A", "e", "2021-05-05", "Fix CVE-2021-9999 overflow", [], 1, 2, 0⟩])
        ⟨"CVE-2021-9999", "CVE-2021-9999", "", "", "", [], "", false, [], 0, [], ⟨[], [], []⟩⟩)).matched_commits
      = pyDedup ["abc123"] ∧
    tierBC (fun _ => false) (fun _ _ => []) 20 (tierA_mark (associateOne
        (buildIndex [⟨"abc123", "A", "e", "2021-05-05", "Fix CVE-2021-9999 overflow", [], 1, 2, 0⟩])
        ⟨"CVE-2021-9999", "CVE-2021-9999", "", "", "", [], "", false, [], 0, [], ⟨[], [], []⟩⟩)) =
      (tierA_mark (associateOne
        (buildIndex [⟨"abc123", "A", "e", "2021-05-05", "Fix CVE-2021-9999 overflow", [], 1, 2, 0⟩])
        ⟨"CVE-2021-9999", "CVE-2021-9999", "", "", "", [], "", false, [], 0, [], ⟨[], [], []⟩⟩), []) :=
  tierA_match_short_circuit
    [⟨"abc123", "A", "e", "2021-05-05", "Fix CVE-2021-9999 overflow", [], 1, 2, 0⟩]
    ⟨"CVE-2021-9999", "CVE-2021-9999", "", "", "", [], "", false, [], 0, [], ⟨[], [], []⟩⟩
    (fun _ => false) (fun _ _ => []) 20 ["abc123"] (by decide) (by decide) (by decide)

/-- Claim C6: Tier B accepts a reference-extracted commit SHA only if
`commitExists` validates it.  For a still-unmatched record whose references
yield exactly one candidate SHA and no PR number, exactly one
commit-existence query is issued; if it returns false the record stays
unmatched with no `commit_reference` tag and untouched `evidence.commit_shas`;
if it returns true the SHA is appended to `matched_commits`,
`commit_reference` is added to `match_types`, and the validated list is
recorded under `evidence.commit_shas`. -/
theorem tierB_commit_reference (item : VulnRecord) (ce : String → Bool)
    (gr : String → Nat → List String) (maxPrHits : Nat) (sha : String) (urls : List String)
    (hm : item.matched = false) (hmc : item.matched_commits = [])
    (hmt : item.match_types = [])
    (hex : extract_strong_signals item.references = ([sha], [], urls)) :
    (tierBC ce gr maxPrHits item).2 = [GitQuery.commitExistsQ sha] ∧
    (ce sha = false →
      (tierBC ce gr maxPrHits item).1.matched = false ∧
      "commit_reference" ∉ (tierBC ce gr maxPrHits item).1.match_types ∧
      (tierBC ce gr maxPrHits item).1.evidence.commit_shas = item.evidence.commit_shas) ∧
    (ce sha = true →
      (tierBC ce gr maxPrHits item).1.matched = true ∧
      (tierBC ce gr maxPrHits item).1.matched_commits = [sha] ∧
      "commit_reference" ∈ (tierBC ce gr maxPrHits item).1.match_types ∧
      (tierBC ce gr maxPrHits item).1.evidence.commit_shas = [sha]) := by
  cases hce : ce sha with
  | false =>
    have hbc : tierBC ce gr maxPrHits item =
        ({ item with
            matched_commits := [],
            matched_commits_count := 0,
            match_types := [],
            evidence := { item.evidence with urls := pyDedup (item.evidence.urls ++ urls) },
            matched := false },
         [GitQuery.commitExistsQ sha]) := by
      unfold tierBC
      rw [hm]
      simp only [Bool.false_eq_true, if_false, hex, tierB_scan, hce, tierC_loop, hmc, hmt]
      simp [pyDedup, pyDedupAux, sortedDedup, sortStrings]
    rw [hbc]
    refine ⟨rfl, fun _ => ⟨rfl, by simp, rfl⟩, fun hc => absurd hc (by decide)⟩
  | true =>
    have hbc : tierBC ce gr maxPrHits item =
        ({ item with
            matched_commits := [sha],
            matched_commits_count := 1,
            match_types := ["commit_reference"],
            evidence := { item.evidence with
              urls := pyDedup (item.evidence.urls ++ urls), commit_shas := [sha] },
            matched := true },
         [GitQuery.commitExistsQ sha]) := by
      unfold tierBC
      rw [hm]
      simp only [Bool.false_eq_true, if_false, hex, tierB_scan, hce, tierC_loop, hmc, hmt]
      simp [pyDedup, pyDedupAux, sortedDedup, sortStrings, insertSorted]
    rw [hbc]
    refine ⟨rfl, fun hc => absurd hc (by decide), fun _ => ⟨rfl, rfl, by simp, rfl⟩⟩

/-- Witness for C6: the spec scenario — sole reference a GitHub commit URL
with SHA `deadbeef…`, `commitExists` flipped false then true. -/
theorem tierB_commit_reference_witness :
    (tierBC (fun _ => false) (fun _ _ => []) 20
        ⟨"CVE-2022-0001", "CVE-2022-0001", "", "", "",
         ["https://github.com/x/y/commit/deadbeefdeadbeefdeadbeefdeadbeefdeadbeef"],
         "", false, [], 0, [], ⟨[], [], []⟩⟩).1.matched = false ∧
    (tierBC (fun _ => true) (fun _ _ => []) 20
        ⟨"CVE-2022-0001", "CVE-2022-0001", "", "", "",
         ["https://github.com/x/y/commit/deadbeefdeadbeefdeadbeefdeadbeefdeadbeef"],
         "", false, [], 0, [], ⟨[], [], []⟩⟩).1.match_types = ["commit_reference"] ∧
    (tierBC (fun _ => true) (fun _ _ => []) 20
        ⟨"CVE-2022-0001", "CVE-2022-0001", "", "", "",
         ["https://github.com/x/y/commit/deadbeefdeadbeefdeadbeefdeadbeefdeadbeef"],
         "", false, [], 0, [], ⟨[], [], []⟩⟩).1.evidence.commit_shas =
      ["deadbeefdeadbeefdeadbeefdeadbeefdeadbeef"] := by
  refine ⟨?_, ?_, ?_⟩
  · exact ((tierB_commit_reference
      ⟨"CVE-2022-0001", "CVE-2022-0001", "", "", "",
       ["https://github.com/x/y/commit/deadbeefdeadbeefdeadbeefdeadbeefdeadbeef"],
       "", false, [], 0, [], ⟨[], [], []⟩⟩
      (fun _ => false) (fun _ _ => []) 20
      "deadbeefdeadbeefdeadbeefdeadbeefdeadbeef"
      ["https://github.com/x/y/commit/deadbeefdeadbeefdeadbeefdeadbeefdeadbeef"]
      rfl rfl rfl (by decide)).2.1 rfl).1
  · have h := ((tierB_commit_reference
      ⟨"CVE-2022-0001", "CVE-2022-0001", "", "", "",
       ["https://github.com/x/y/commit/deadbeefdeadbeefdeadbeefdeadbeefdeadbeef"],
       "", false, [], 0, [], ⟨[], [], []⟩⟩
      (fun _ => true) (fun _ _ => []) 20
      "deadbeefdeadbeefdeadbeefdeadbeefdeadbeef"
      ["https://github.com/x/y/commit/deadbeefdeadbeefdeadbeefdeadbeefdeadbeef"]
      rfl rfl rfl (by decide)).2.2 rfl).2.2.1
    revert h
    decide
  · exact ((tierB_commit_reference
      ⟨"CVE-2022-0001", "CVE-2022-0001", "", "", "",
       ["https://github.com/x/y/commit/deadbeefdeadbeefdeadbeefdeadbeefdeadbeef"],
       "", false, [], 0, [], ⟨[], [], []⟩⟩
      (fun _ => true) (fun _ _ => []) 20
      "deadbeefdeadbeefdeadbeefdeadbeefdeadbeef"
      ["https://github.com/x/y/commit/deadbeefdeadbeefdeadbeefdeadbeefdeadbeef"]
      rfl rfl rfl (by decide)).2.2 rfl).2.2.2

/-- Claim C7: for a PR number extracted from a `/pull/`-shaped reference of a
still-unmatched record, the linker greps the four message templates in order
with the per-PR hit cap, stopping at the first that yields hits; when only the
last (bare `#N`) template hits, the record still gets
`match_types = ["pr_reference"]`, the (de-duplicated) hits appended to
`matched_commits` and recorded under `evidence.pr_hits[str(N)]`. -/
theorem tierC_template_fallback (item : VulnRecord) (ce : String → Bool)
    (gr : String → Nat → List String) (maxPrHits : Nat) (pr : Nat) (urls : List String)
    (L : List String)
    (hm : item.matched = false) (hmc : item.matched_commits = [])
    (hmt : item.match_types = [])
    (hex : extract_strong_signals item.references = ([], [pr], urls))
    (h1 : gr ("Merge pull request #" ++ toString pr) maxPrHits = [])
    (h2 : gr ("pull request #" ++ toString pr) maxPrHits = [])
    (h3 : gr ("PR #" ++ toString pr) maxPrHits = [])
    (h4 : gr ("#" ++ toString pr) maxPrHits = L) (hL : L ≠ []) :
    (tierBC ce gr maxPrHits item).1.match_types = ["pr_reference"] ∧
    (tierBC ce gr maxPrHits item).1.matched_commits = pyDedup L ∧
    (tierBC ce gr maxPrHits item).1.evidence.pr_hits = [(toString pr, pyDedup L)] ∧
    (tierBC ce gr maxPrHits item).1.matched = true ∧
    (tierBC ce gr maxPrHits item).2 =
      [GitQuery.grepQ ("Merge pull request #" ++ toString pr) maxPrHits,
       GitQuery.grepQ ("pull request #" ++ toString pr) maxPrHits,
       GitQuery.grepQ ("PR #" ++ toString pr) maxPrHits,
       GitQuery.grepQ ("#" ++ toString pr) maxPrHits] := by
  have htry : tryPatterns gr maxPrHits (prPatterns pr) =
      (L, [GitQuery.grepQ ("Merge pull request #" ++ toString pr) maxPrHits,
           GitQuery.grepQ ("pull request #" ++ toString pr) maxPrHits,
           GitQuery.grepQ ("PR #" ++ toString pr) maxPrHits,
           GitQuery.grepQ ("#" ++ toString pr) maxPrHits]) := by
    simp only [prPatterns, tryPatterns, h1, h2, h3, h4]
    simp [hL]
  have hc : tierC_loop gr maxPrHits [pr] =
      ([(toString pr, pyDedup L)], pyDedup L,
       [GitQuery.grepQ ("Merge pull request #" ++ toString pr) maxPrHits,
        GitQuery.grepQ ("pull request #" ++ toString pr) maxPrHits,
        GitQuery.grepQ ("PR #" ++ toString pr) maxPrHits,
        GitQuery.grepQ ("#" ++ toString pr) maxPrHits]) := by
    simp only [tierC_loop, htry]
    simp [hL]
  have hdL : pyDedup L ≠ [] := fun hcon => hL ((pyDedup_eq_nil_iff L).mp hcon)
  have hbc : tierBC ce gr maxPrHits item =
      ({ item with
          matched_commits := pyDedup L,
          matched_commits_count := (pyDedup L).length,
          match_types := ["pr_reference"],
          evidence := { item.evidence with
            urls := pyDedup (item.evidence.urls ++ urls),
            pr_hits := [(toString pr, pyDedup L)] },
          matched := true },
       [GitQuery.grepQ ("Merge pull request #" ++ toString pr) maxPrHits,
        GitQuery.grepQ ("pull request #" ++ toString pr) maxPrHits,
        GitQuery.grepQ ("PR #" ++ toString pr) maxPrHits,
        GitQuery.grepQ ("#" ++ toString pr) maxPrHits]) := by
    unfold tierBC
    rw [hm]
    simp only [Bool.false_eq_true, if_false, hex, tierB_scan, hc, hmc, hmt]
    rw [show (([] : List String) ++ [] ++ pyDedup L) = pyDedup L from by simp]
    rw [pyDedup_idem, isEmpty_false_of_ne_nil hdL]
    simp [sortedDedup, pyDedup, pyDedupAux, sortStrings, insertSorted]
  rw [hbc]
  exact ⟨rfl, rfl, rfl, rfl, rfl⟩

/-- Witness for C7: the spec scenario — a `/pull/42` reference where only the
bare `#42` grep returns `["abcd111"]`. -/
theorem tierC_template_fallback_witness :
    (tierBC (fun _ => false) (fun p _ => if p = "#42" then ["abcd111"] else []) 20
        ⟨"CVE-2022-0002", "CVE-2022-0002", "", "", "",
         ["https://github.com/x/y/pull/42"], "", false, [], 0, [], ⟨[], [], []⟩⟩).1.match_types
      = ["pr_reference"] ∧
    (tierBC (fun _ => false) (fun p _ => if p = "#42" then ["abcd111"] else []) 20
        ⟨"CVE-2022-0002", "CVE-2022-0002", "", "", "",
         ["https://github.com/x/y/pull/42"], "", false, [], 0, [], ⟨[], [], []⟩⟩).1.evidence.pr_hits
      = [("42", ["abcd111"])] := by
  have h := tierC_template_fallback
    ⟨"CVE-2022-0002", "CVE-2022-0002", "", "", "",
     ["https://github.com/x/y/pull/42"], "", false, [], 0, [], ⟨[], [], []⟩⟩
    (fun _ => false) (fun p _ => if p = "#42" then ["abcd111"] else []) 20 42
    ["https://github.com/x/y/pull/42"] ["abcd111"]
    rfl rfl rfl (by decide) (by decide) (by decide) (by decide) (by decide) (by decide)
  exact ⟨h.1, h.2.2.1⟩

/-! ### Claim C9 -/

theorem not_isEmpty_iff_ne_nil {α : Type} (l : List α) : (!l.isEmpty) = true ↔ l ≠ [] := by
  cases l <;> simp

theorem tierA_mark_of_unmatched (it : VulnRecord) (h : it.matched = false) :
    tierA_mark it = it := by
  unfold tierA_mark
  rw [h]
  simp

theorem tierC_loop_hits_iff (gr : String → Nat → List String) (m : Nat) :
    ∀ prs : List Nat, (tierC_loop gr m prs).1 = [] ↔ (tierC_loop gr m prs).2.1 = [] := by
  intro prs
  induction prs with
  | nil => simp [tierC_loop]
  | cons pr rest ih =>
    by_cases ht : (tryPatterns gr m (prPatterns pr)).1 = []
    · have hneg : ¬((tryPatterns gr m (prPatterns pr)).1 ≠ []) := fun hc => hc ht
      simp only [tierC_loop, if_neg hneg]
      exact ih
    · simp only [tierC_loop, if_pos ht]
      apply iff_of_false
      · simp
      · intro hap
        exact ht ((pyDedup_eq_nil_iff _).mp (List.append_eq_nil.mp hap).1)

theorem tierBC_unmatched_spec (ce : String → Bool) (gr : String → Nat → List String)
    (m : Nat) (it : VulnRecord) (hm : it.matched = false) :
    (tierBC ce gr m it).1.matched_commits =
      pyDedup (it.matched_commits ++ (tierB_scan ce (extract_strong_signals it.references).1).1
        ++ (tierC_loop gr m (extract_strong_signals it.references).2.1).2.1) ∧
    (tierBC ce gr m it).1.matched_commits_count = (tierBC ce gr m it).1.matched_commits.length ∧
    (tierBC ce gr m it).1.match_types = sortedDedup (it.match_types ++
      ((if (tierB_scan ce (extract_strong_signals it.references).1).1 ≠ []
          then ["commit_reference"] else []) ++
       (if (tierC_loop gr m (extract_strong_signals it.references).2.1).1 ≠ []
          then ["pr_reference"] else []))) ∧
    (tierBC ce gr m it).1.matched = !(tierBC ce gr m it).1.matched_commits.isEmpty := by
  unfold tierBC
  rw [hm, if_neg (show ¬(false = true) by decide)]
  exact ⟨rfl, rfl, rfl, rfl⟩

theorem tierBC_preserves_linkInvariant (ce : String → Bool) (gr : String → Nat → List String)
    (m : Nat) (it : VulnRecord) (h : linkInvariant it) :
    linkInvariant (tierBC ce gr m it).1 := by
  by_cases hmB : it.matched = true
  · rw [tierBC_of_matched ce gr m it hmB]; exact h
  · have hm' : it.matched = false := by
      cases hmm : it.matched
      · rfl
      · exact absurd hmm hmB
    obtain ⟨h1, h2, _, _, _⟩ := h
    have hmc : it.matched_commits = [] := by
      by_contra hne
      rw [h1.mpr hne] at hm'
      exact absurd hm' (by decide)
    have hmt : it.match_types = [] := by
      by_contra hne
      rw [h2.mp hne] at hm'
      exact absurd hm' (by decide)
    obtain ⟨e1, e2, e3, e4⟩ := tierBC_unmatched_spec ce gr m it hm'
    rw [hmc, List.nil_append] at e1
    rw [hmt, List.nil_append] at e3
    refine ⟨?_, ?_, ?_, ?_, e2⟩
    · rw [e4]
      exact not_isEmpty_iff_ne_nil _
    · rw [e3, e4, not_isEmpty_iff_ne_nil, e1]
      simp only [ne_eq, sortedDedup_eq_nil_iff, pyDedup_eq_nil_iff, List.append_eq_nil]
      apply not_congr
      constructor
      · intro ⟨ha, hb⟩
        have hv : (tierB_scan ce (extract_strong_signals it.references).1).1 = [] := by
          by_contra hvne
          rw [if_pos hvne] at ha
          exact absurd ha (by simp)
        have hp : (tierC_loop gr m (extract_strong_signals it.references).2.1).1 = [] := by
          by_contra hpne
          rw [if_pos hpne] at hb
          exact absurd hb (by simp)
        exact ⟨hv, (tierC_loop_hits_iff gr m _).mp hp⟩
      · intro ⟨hv, hp⟩
        have hphits : (tierC_loop gr m (extract_strong_signals it.references).2.1).1 = [] :=
          (tierC_loop_hits_iff gr m _).mpr hp
        constructor
        · rw [if_neg (show ¬(tierB_scan ce (extract_strong_signals it.references).1).1 ≠ []
            from fun hc => hc hv)]
        · rw [if_neg (show ¬(tierC_loop gr m (extract_strong_signals it.references).2.1).1 ≠ []
            from fun hc => hc hphits)]
    · rw [e1]; exact pyDedup_nodup _
    · rw [e1, pyDedup_idem]

theorem linkInvariant_after_associate (idx : List (String × List String)) (u : VulnRecord)
    (hu : u.match_types = []) : linkInvariant (tierA_mark (associateOne idx u)) := by
  have hw : associateOne idx u =
      { u with
        matched := !(if u.id ≠ "" then pyDedup (lookupIdx idx u.id) else []).isEmpty,
        matched_commits := (if u.id ≠ "" then pyDedup (lookupIdx idx u.id) else []),
        matched_commits_count :=
          (if u.id ≠ "" then pyDedup (lookupIdx idx u.id) else []).length } := rfl
  have hnodup : (if u.id ≠ "" then pyDedup (lookupIdx idx u.id) else []).Nodup := by
    split
    · exact pyDedup_nodup _
    · exact List.nodup_nil
  have hidem : (if u.id ≠ "" then pyDedup (lookupIdx idx u.id) else []) =
      pyDedup (if u.id ≠ "" then pyDedup (lookupIdx idx u.id) else []) := by
    split
    · exact (pyDedup_idem _).symm
    · rfl
  by_cases hne : (if u.id ≠ "" then pyDedup (lookupIdx idx u.id) else []) = []
  · have hmf : (associateOne idx u).matched = false := by
      rw [hw]
      show (!(if u.id ≠ "" then pyDedup (lookupIdx idx u.id) else []).isEmpty) = false
      rw [hne]
      decide
    rw [tierA_mark_of_unmatched _ hmf]
    refine ⟨not_isEmpty_iff_ne_nil _, ?_, hnodup, hidem, rfl⟩
    apply iff_of_false
    · show ¬ u.match_types ≠ []
      rw [hu]
      simp
    · rw [hmf]
      decide
  · have hmt : (associateOne idx u).matched = true := by
      rw [hw]
      show (!(if u.id ≠ "" then pyDedup (lookupIdx idx u.id) else []).isEmpty) = true
      rw [isEmpty_false_of_ne_nil hne]
      decide
    rw [tierA_mark_of_matched _ hmt]
    refine ⟨not_isEmpty_iff_ne_nil _, ?_, hnodup, hidem, rfl⟩
    apply iff_of_true
    · show sortedDedup ((associateOne idx u).match_types ++ ["cve_in_subject"]) ≠ []
      have hmtypes : (associateOne idx u).match_types = u.match_types := by rw [hw]
      rw [hmtypes, hu, ne_eq, sortedDedup_eq_nil_iff]
      simp
    · exact hmt

/-- Claim C9: every record output by the linker — both at the Tier A
checkpoint and after the Tier B/C pass — satisfies the invariants:
`matched` iff `matched_commits` non-empty; `match_types` non-empty iff
`matched`; `matched_commits` duplicate-free (equal to its own
first-occurrence de-duplication, i.e. first-seen order); and
`matched_commits_count` equals the length of `matched_commits`.  The
hypothesis states what `clean_cves` guarantees for the linker's input: no
pre-existing `match_types`. -/
theorem linker_invariants (ce : String → Bool) (gr : String → Nat → List String)
    (maxPrHits : Nat) (cves : List VulnRecord) (commits : List CommitRecord)
    (hclean : ∀ v ∈ cves, v.match_types = []) :
    (∀ v ∈ tierAPhase cves commits, linkInvariant v) ∧
    (∀ v ∈ linkRecords ce gr maxPrHits cves commits, linkInvariant v) := by
  have hA : ∀ v ∈ tierAPhase cves commits, linkInvariant v := by
    intro v hv
    unfold tierAPhase associate_with_commits at hv
    obtain ⟨w, hw, rfl⟩ := List.mem_map.mp hv
    obtain ⟨u, hu, rfl⟩ := List.mem_map.mp hw
    exact linkInvariant_after_associate _ u (hclean u hu)
  refine ⟨hA, ?_⟩
  intro v hv
  unfold linkRecords at hv
  obtain ⟨w, hw, rfl⟩ := List.mem_map.mp hv
  exact tierBC_preserves_linkInvariant ce gr maxPrHits w (hA w hw)

/-- Witness for C9: the invariants instantiated on the concrete output of the
linker for one CVE record and one matching commit. -/
theorem linker_invariants_witness :
    linkInvariant
      ⟨"CVE-2021-9999", "CVE-2021-9999", "", "", "", [], "", true, ["abc123"], 1,
       ["cve_in_subject"], ⟨[], [], []⟩⟩ :=
  (linker_invariants (fun _ => false) (fun _ _ => []) 20
    [⟨"CVE-2021-9999", "CVE-2021-9999", "", "", "", [], "", false, [], 0, [], ⟨[], [], []⟩⟩]
    [⟨"abc123", "A", "e", "2021-05-05", "Fix CVE-2021-9999 overflow", [], 1, 2, 0⟩]
    (by decide)).2
    ⟨"CVE-2021-9999", "CVE-2021-9999", "", "", "", [], "", true, ["abc123"], 1,
     ["cve_in_subject"], ⟨[], [], []⟩⟩
    (by decide)

/-! ### Claim C10 -/

/-- Claim C10: `associate_with_commits` returns fresh records (the model is a
pure function over copies, mirroring `dict(cve)`), of the same number as its
input, and each output record agrees with the corresponding input record on
every pre-existing field — `id`, `raw_id`, `summary`, `published`,
`modified`, `references`, `source` (and any carried `match_types`/`evidence`)
— modifying only `matched`, `matched_commits` and `matched_commits_count`. -/
theorem associate_with_commits_frame (cves : List VulnRecord) (commits : List CommitRecord) :
    (associate_with_commits cves commits).length = cves.length ∧
    ∀ i (h1 : i < cves.length) (h2 : i < (associate_with_commits cves commits).length),
      ((associate_with_commits cves commits).get ⟨i, h2⟩).id = (cves.get ⟨i, h1⟩).id ∧
      ((associate_with_commits cves commits).get ⟨i, h2⟩).raw_id = (cves.get ⟨i, h1⟩).raw_id ∧
      ((associate_with_commits cves commits).get ⟨i, h2⟩).summary = (cves.get ⟨i, h1⟩).summary ∧
      ((associate_with_commits cves commits).get ⟨i, h2⟩).published = (cves.get ⟨i, h1⟩).published ∧
      ((associate_with_commits cves commits).get ⟨i, h2⟩).modified = (cves.get ⟨i, h1⟩).modified ∧
      ((associate_with_commits cves commits).get ⟨i, h2⟩).references = (cves.get ⟨i, h1⟩).references ∧
      ((associate_with_commits cves commits).get ⟨i, h2⟩).source = (cves.get ⟨i, h1⟩).source ∧
      ((associate_with_commits cves commits).get ⟨i, h2⟩).match_types = (cves.get ⟨i, h1⟩).match_types ∧
      ((associate_with_commits cves commits).get ⟨i, h2⟩).evidence = (cves.get ⟨i, h1⟩).evidence := by
  constructor
  · exact List.length_map cves (associateOne (buildIndex commits))
  · intro i h1 h2
    have hget : (associate_with_commits cves commits).get ⟨i, h2⟩ =
        associateOne (buildIndex commits) (cves.get ⟨i, h1⟩) := by
      unfold associate_with_commits
      rw [List.get_map]
    rw [hget]
    exact ⟨rfl, rfl, rfl, rfl, rfl, rfl, rfl, rfl, rfl⟩

/-- Witness for C10: the frame conditions at index 0 of a concrete run. -/
theorem associate_with_commits_frame_witness :
    (associate_with_commits
        [⟨"CVE-2021-9999", "cve-2021-9999", "s", "2021", "2022", ["u"], "osv",
          false, [], 0, [], ⟨[], [], []⟩⟩]
        [⟨"abc123", "A", "e", "2021-05-05", "Fix CVE-2021-9999 overflow", [], 1, 2, 0⟩]).length
      = 1 ∧
    ((associate_with_commits
        [⟨"CVE-2021-9999", "cve-2021-9999", "s", "2021", "2022", ["u"], "osv",
          false, [], 0, [], ⟨[], [], []⟩⟩]
        [⟨"abc123", "A", "e", "2021-05-05", "Fix CVE-2021-9999 overflow", [], 1, 2, 0⟩]).get
      ⟨0, by decide⟩).summary = "s" := by
  constructor
  · exact (associate_with_commits_frame
      [⟨"CVE-2021-9999", "cve-2021-9999", "s", "2021", "2022", ["u"], "osv",
        false, [], 0, [], ⟨[], [], []⟩⟩]
      [⟨"abc123", "A", "e", "2021-05-05", "Fix CVE-2021-9999 overflow", [], 1, 2, 0⟩]).1
  · exact ((associate_with_commits_frame
      [⟨"CVE-2021-9999", "cve-2021-9999", "s", "2021", "2022", ["u"], "osv",
        false, [], 0, [], ⟨[], [], []⟩⟩]
      [⟨"abc123", "A", "e", "2021-05-05", "Fix CVE-2021-9999 overflow", [], 1, 2, 0⟩]).2
      0 (by decide) (by decide)).2.2.1

end PillowSpec
